import Mathlib

/-!
# Verification of the prepared-statement core of a Cassandra/Scylla driver

Shallow embedding of `src/scylla/src/statement/prepared_statement.rs`:
the `PreparedStatement` entity, its configuration setters, and the
partition-key codec `compute_partition_key`, together with proofs of the
specified properties.

Machine integers from the source (`u16` bind-marker indexes, `i32` page
size, `i16` value count) are modelled as `Nat`/`Int`; wherever the source
performs `u16` arithmetic that could wrap, the wrap is made explicit with
`% 65536` (release-mode two's-complement semantics), and a separate
"checked" variant flags any wrap, modelling the debug-mode panic.
-/

set_option maxHeartbeats 1000000

namespace Scylla

/-! ## Opaque collaborator types

These types come from modules of the repository outside the studied file
(`frame::types`, `history`, `transport::execution_profile`, ...).  Their
internal structure is irrelevant to the statement logic, so each is
modelled as a single-field wrapper. -/

/-- Consistency level (`frame::types::Consistency`), opaque here. -/
structure Consistency where
  val : Nat
deriving DecidableEq, Inhabited

/-- Serial consistency level (`frame::types::SerialConsistency`), opaque here. -/
structure SerialConsistency where
  val : Nat
deriving DecidableEq, Inhabited

/-- Tracing id (`uuid::Uuid`), opaque here. -/
structure Uuid where
  val : Nat
deriving DecidableEq, Inhabited

/-- A span of time (`std::time::Duration`), opaque here. -/
structure Duration where
  nanos : Nat
deriving DecidableEq, Inhabited

/-- A history listener handle (`Arc<dyn HistoryListener>`), opaque here. -/
structure HistoryListener where
  ref : Nat
deriving DecidableEq, Inhabited

/-- An execution profile handle, opaque here. -/
structure ExecutionProfileHandle where
  ref : Nat
deriving DecidableEq, Inhabited

/-- Name of the partitioner (`transport::partitioner::PartitionerName`):
the default Murmur3 partitioner or the CDC partitioner. -/
inductive PartitionerName where
  | murmur3
  | cdc
deriving DecidableEq, Inhabited

/-- A byte string (`bytes::Bytes` / `&[u8]`); byte values are `Nat`s,
which is enough for the properties at stake. -/
abbrev Bytes := List Nat

/-- One entry of `PreparedMetadata::pk_indexes`
(`frame::response::result::PartitionKeyIndex`): `index` is the position of
this partition-key component among bind markers, `sequence` its position
within the partition key itself.  Both are `u16` in the source. -/
structure PartitionKeyIndex where
  index : Nat
  sequence : Nat
deriving DecidableEq, Inhabited

/-- A column descriptor, reduced to the parts the studied file reads. -/
structure ColumnSpec where
  ks_name : String
  table_name : String
  col_name : String
deriving DecidableEq, Inhabited

/-- `frame::response::result::PreparedMetadata`, reduced to the fields the
studied file reads. -/
structure PreparedMetadata where
  col_specs : List ColumnSpec
  pk_indexes : List PartitionKeyIndex
deriving DecidableEq, Inhabited

/-- `frame::value::SerializedValues`: an ordered sequence of optional byte
slices (`None` = null value).  Its `len()` is an `i16` in the source, so a
real value sequence has at most 32767 entries. -/
abbrev SerializedValues := List (Option Bytes)

/-- `PartitionKeyError` from the studied file. -/
inductive PartitionKeyError where
  | NoPkIndexValue (index : Nat) (values_len : Nat)
  | ValueTooLong (len : Nat)
deriving DecidableEq, Inhabited

/-- Modelled from the spec: the per-statement override set
(`StatementConfig`, whose definition lives outside `src/`): optional
overrides for consistency, serial consistency, idempotence, tracing,
timestamp, request timeout, history listener and execution profile.
Field shapes follow the setters/getters of the studied file
(e.g. `set_serial_consistency` stores `Some(sc)` with `sc` itself
optional, and the getter flattens). -/
structure StatementConfig where
  consistency : Option Consistency
  serial_consistency : Option (Option SerialConsistency)
  is_idempotent : Bool
  tracing : Bool
  timestamp : Option Int
  request_timeout : Option Duration
  history_listener : Option HistoryListener
  execution_profile_handle : Option ExecutionProfileHandle
deriving DecidableEq, Inhabited

/-- `PreparedStatement` from the studied file.  `page_size` is `Option<i32>`
in the source; only its sign matters to the stated properties, so `Int`
suffices. -/
structure PreparedStatement where
  config : StatementConfig
  prepare_tracing_ids : List Uuid
  id : Bytes
  metadata : PreparedMetadata
  statement : String
  page_size : Option Int
  partitioner_name : PartitionerName
  is_confirmed_lwt : Bool
deriving DecidableEq, Inhabited

/-! ## The partition-key codec -/

/-- Big-endian byte pair of a `u16` length (`BufMut::put_u16`). -/
def u16be (n : Nat) : Bytes :=
  [n / 256 % 256, n % 256]

/-- The emission loop of `compute_partition_key` (lines 165-175 of the
source): for each collected non-null component, check its length fits a
`u16` (`ValueTooLong` otherwise) and append
`(u16 BE length, raw bytes, 0x00)`. -/
def emitPk : List Bytes → Except PartitionKeyError Bytes
  | [] => .ok []
  | v :: rest =>
    if 65535 < v.length then .error (.ValueTooLong v.length)
    else
      match emitPk rest with
      | .error e => .error e
      | .ok tail => .ok (u16be v.length ++ v ++ 0 :: tail)

/-- The collection loop of the composite path (lines 149-163 of the
source).  `values_iter` models the live iterator over `bound_values`; an
`nth(k)` call is `drop k` followed by taking the head.  `off` is the
source's `values_iter_offset : u16`; the subtraction
`pk_index.index - values_iter_offset` and the update
`values_iter_offset = pk_index.index + 1` are `u16` operations, modelled
with explicit wrap (`% 65536`).  A null value leaves the slot array
unchanged; `List.set` out of range is a no-op (the Rust indexing
`pk_values[sequence]` would panic there; all claims keep `sequence` in
range).  The source's `buf_size` accumulator only pre-sizes the buffer and
has no observable effect, so it is not modelled. -/
def pkLoop : List PartitionKeyIndex → SerializedValues → Nat → Nat →
    List (Option Bytes) → Except PartitionKeyError (List (Option Bytes))
  | [], _, _, _, pk_values => .ok pk_values
  | pk :: rest, values_iter, off, values_len, pk_values =>
    match values_iter.drop ((pk.index + 65536 - off) % 65536) with
    | [] => .error (.NoPkIndexValue pk.index values_len)
    | next_val :: remaining =>
      pkLoop rest remaining ((pk.index + 1) % 65536) values_len
        (match next_val with
         | some v => pk_values.set pk.sequence (some v)
         | none => pk_values)

/-- `PreparedStatement::compute_partition_key`, as a function of the
metadata it reads (the method reads nothing else of `self`). -/
def compute_partition_key (meta : PreparedMetadata) (bound_values : SerializedValues) :
    Except PartitionKeyError Bytes :=
  if meta.pk_indexes.length = 1 then
    match bound_values[meta.pk_indexes.headI.index]? with
    | none => .error (.NoPkIndexValue meta.pk_indexes.headI.index bound_values.length)
    | some none => .ok []
    | some (some v) => .ok v
  else
    match pkLoop meta.pk_indexes bound_values 0 bound_values.length
        (List.replicate meta.pk_indexes.length none) with
    | .error e => .error e
    | .ok pk_values => emitPk (pk_values.filterMap id)

/-! ### Reference (naive) codec

Modelled from the spec: the "naive re-lookup-from-start approach" of
design note §9 — for each `pk_index`, the bound value is looked up
directly at position `pk_index.index` from the start of `bound_values`,
instead of through the forward cursor. -/

/-- Naive collection loop: direct indexed lookup for every `pk_index`. -/
def naiveLoop : List PartitionKeyIndex → SerializedValues → Nat →
    List (Option Bytes) → Except PartitionKeyError (List (Option Bytes))
  | [], _, _, pk_values => .ok pk_values
  | pk :: rest, values, values_len, pk_values =>
    match values[pk.index]? with
    | none => .error (.NoPkIndexValue pk.index values_len)
    | some next_val =>
      naiveLoop rest values values_len
        (match next_val with
         | some v => pk_values.set pk.sequence (some v)
         | none => pk_values)

/-- Modelled from the spec: `compute_partition_key` with the naive
lookup-from-start strategy in the composite path; the single-component
fast path is unchanged. -/
def compute_partition_key_naive (meta : PreparedMetadata)
    (bound_values : SerializedValues) : Except PartitionKeyError Bytes :=
  if meta.pk_indexes.length = 1 then
    match bound_values[meta.pk_indexes.headI.index]? with
    | none => .error (.NoPkIndexValue meta.pk_indexes.headI.index bound_values.length)
    | some none => .ok []
    | some (some v) => .ok v
  else
    match naiveLoop meta.pk_indexes bound_values bound_values.length
        (List.replicate meta.pk_indexes.length none) with
    | .error e => .error e
    | .ok pk_values => emitPk (pk_values.filterMap id)

/-! ### Overflow-checked codec

The collection loop with the two `u16` operations guarded: `none` marks
the arithmetic wrap that a debug build of the source would report as a
panic. -/

/-- `pkLoop` with checked `u16` arithmetic: returns `none` iff the
subtraction `pk.index - off` would underflow or the update
`off = pk.index + 1` would overflow `u16`. -/
def pkLoopChecked : List PartitionKeyIndex → SerializedValues → Nat → Nat →
    List (Option Bytes) → Option (Except PartitionKeyError (List (Option Bytes)))
  | [], _, _, _, pk_values => some (.ok pk_values)
  | pk :: rest, values_iter, off, values_len, pk_values =>
    if pk.index < off then none
    else
      match values_iter.drop (pk.index - off) with
      | [] => some (.error (.NoPkIndexValue pk.index values_len))
      | next_val :: remaining =>
        if 65535 < pk.index + 1 then none
        else
          pkLoopChecked rest remaining (pk.index + 1) values_len
            (match next_val with
             | some v => pk_values.set pk.sequence (some v)
             | none => pk_values)

/-- `compute_partition_key` with checked `u16` arithmetic in the composite
path. -/
def compute_partition_key_checked (meta : PreparedMetadata)
    (bound_values : SerializedValues) : Option (Except PartitionKeyError Bytes) :=
  if meta.pk_indexes.length = 1 then
    some (match bound_values[meta.pk_indexes.headI.index]? with
      | none => .error (.NoPkIndexValue meta.pk_indexes.headI.index bound_values.length)
      | some none => .ok []
      | some (some v) => .ok v)
  else
    match pkLoopChecked meta.pk_indexes bound_values 0 bound_values.length
        (List.replicate meta.pk_indexes.length none) with
    | none => none
    | some (.error e) => some (.error e)
    | some (.ok pk_values) => some (emitPk (pk_values.filterMap id))

/-! ### Specification-side descriptions of the composite output -/

/-- One step of the collection loop as a pure slot update: place the value
at `pk.index` (when present and non-null) at slot `pk.sequence`. -/
def setSeq (values : SerializedValues) (pk_values : List (Option Bytes))
    (pk : PartitionKeyIndex) : List (Option Bytes) :=
  match values[pk.index]? with
  | some (some v) => pk_values.set pk.sequence (some v)
  | _ => pk_values

/-- The component occupying sequence slot `s`: the (non-null) bound value
attached to the unique `pk_index` whose `sequence` is `s`. -/
def componentInSeq (meta : PreparedMetadata) (values : SerializedValues)
    (s : Nat) : Option Bytes :=
  match meta.pk_indexes.find? (fun pk => pk.sequence == s) with
  | some pk => (values[pk.index]?).join
  | none => none

/-- The non-null key components listed in ascending `sequence` order. -/
def seqComponents (meta : PreparedMetadata) (values : SerializedValues) : List Bytes :=
  (List.range meta.pk_indexes.length).filterMap (componentInSeq meta values)

/-- Serialized form of one composite-key component:
big-endian `u16` length, raw bytes, one `0x00` terminator. -/
def pkComponentBytes (v : Bytes) : Bytes :=
  u16be v.length ++ v ++ [0]

/-- Concatenation of the serialized components. -/
def concatComponents : List Bytes → Bytes
  | [] => []
  | v :: rest => pkComponentBytes v ++ concatComponents rest

/-- The byte string the spec prescribes for a composite key: the
concatenation, in ascending `sequence` order, of the serialized non-null
components. -/
def expectedCompositeBytes (meta : PreparedMetadata) (values : SerializedValues) : Bytes :=
  concatComponents (seqComponents meta values)

/-! ## `PreparedStatement` operations -/

namespace PreparedStatement

/-- The `Clone` impl (lines 31-44 of the source): copy every field except
`prepare_tracing_ids`, which resets to empty. -/
def clone (s : PreparedStatement) : PreparedStatement :=
  { config := s.config
    prepare_tracing_ids := []
    id := s.id
    metadata := s.metadata
    statement := s.statement
    page_size := s.page_size
    partitioner_name := s.partitioner_name
    is_confirmed_lwt := s.is_confirmed_lwt }

/-- `PreparedStatement::new` (lines 47-65 of the source). -/
def new (id : Bytes) (is_lwt : Bool) (metadata : PreparedMetadata)
    (statement : String) (page_size : Option Int) (config : StatementConfig) :
    PreparedStatement :=
  { id := id
    metadata := metadata
    statement := statement
    prepare_tracing_ids := []
    page_size := page_size
    config := config
    partitioner_name := .murmur3
    is_confirmed_lwt := is_lwt }

/-- `get_id`. -/
def get_id (s : PreparedStatement) : Bytes := s.id

/-- `get_statement`. -/
def get_statement (s : PreparedStatement) : String := s.statement

/-- `set_page_size`: the source asserts `page_size > 0` (a fatal panic,
not a recoverable error), modelled as `none`; on success the field is
overwritten. -/
def set_page_size (s : PreparedStatement) (page_size : Int) :
    Option PreparedStatement :=
  if 0 < page_size then some { s with page_size := some page_size } else none

/-- `disable_paging`. -/
def disable_paging (s : PreparedStatement) : PreparedStatement :=
  { s with page_size := none }

/-- `get_page_size`. -/
def get_page_size (s : PreparedStatement) : Option Int := s.page_size

/-- `is_token_aware`. -/
def is_token_aware (s : PreparedStatement) : Bool :=
  !s.metadata.pk_indexes.isEmpty

/-- `set_consistency`. -/
def set_consistency (s : PreparedStatement) (c : Consistency) : PreparedStatement :=
  { s with config := { s.config with consistency := some c } }

/-- `get_consistency`. -/
def get_consistency (s : PreparedStatement) : Option Consistency :=
  s.config.consistency

/-- `set_serial_consistency`: stores `Some(sc)`. -/
def set_serial_consistency (s : PreparedStatement) (sc : Option SerialConsistency) :
    PreparedStatement :=
  { s with config := { s.config with serial_consistency := some sc } }

/-- `get_serial_consistency`: flattens the stored override. -/
def get_serial_consistency (s : PreparedStatement) : Option SerialConsistency :=
  s.config.serial_consistency.join

/-- `set_is_idempotent`. -/
def set_is_idempotent (s : PreparedStatement) (b : Bool) : PreparedStatement :=
  { s with config := { s.config with is_idempotent := b } }

/-- `set_tracing`. -/
def set_tracing (s : PreparedStatement) (b : Bool) : PreparedStatement :=
  { s with config := { s.config with tracing := b } }

/-- `set_timestamp`. -/
def set_timestamp (s : PreparedStatement) (t : Option Int) : PreparedStatement :=
  { s with config := { s.config with timestamp := t } }

/-- `set_request_timeout`. -/
def set_request_timeout (s : PreparedStatement) (d : Option Duration) : PreparedStatement :=
  { s with config := { s.config with request_timeout := d } }

/-- `set_partitioner_name` (crate-private). -/
def set_partitioner_name (s : PreparedStatement) (p : PartitionerName) : PreparedStatement :=
  { s with partitioner_name := p }

/-- `set_history_listener`. -/
def set_history_listener (s : PreparedStatement) (h : HistoryListener) : PreparedStatement :=
  { s with config := { s.config with history_listener := some h } }

/-- `remove_history_listener`: `Option::take` — returns the old listener
and clears the field. -/
def remove_history_listener (s : PreparedStatement) :
    Option HistoryListener × PreparedStatement :=
  (s.config.history_listener,
    { s with config := { s.config with history_listener := none } })

/-- `set_execution_profile_handle`. -/
def set_execution_profile_handle (s : PreparedStatement)
    (p : Option ExecutionProfileHandle) : PreparedStatement :=
  { s with config := { s.config with execution_profile_handle := p } }

end PreparedStatement

/-- The invariant of spec §3: `page_size`, if present, is strictly
positive. -/
def pageInv (s : PreparedStatement) : Prop :=
  ∀ k, s.page_size = some k → 0 < k

/-- Decidable equality of codec results, for concrete evaluation. -/
instance instDecEqExcept {ε α : Type} [DecidableEq ε] [DecidableEq α] :
    DecidableEq (Except ε α) := fun x y =>
  match x, y with
  | .error e, .error f =>
    if h : e = f then isTrue (by rw [h])
    else isFalse (by intro hh; injection hh; exact h ‹_›)
  | .error _, .ok _ => isFalse (by intro hh; exact Except.noConfusion hh)
  | .ok _, .error _ => isFalse (by intro hh; exact Except.noConfusion hh)
  | .ok a, .ok b =>
    if h : a = b then isTrue (by rw [h])
    else isFalse (by intro hh; injection hh; exact h ‹_›)

/-! ## Concrete fixtures used by the witnesses -/

/-- Three-component key, bind order differing from key order, third
component bound to null. -/
def exMeta3 : PreparedMetadata :=
  { col_specs := [], pk_indexes := [⟨0, 1⟩, ⟨1, 0⟩, ⟨2, 2⟩] }

/-- Bound values for `exMeta3`. -/
def exVals3 : SerializedValues := [some [7], some [8, 9], none]

/-- Single-component key bound at marker 1. -/
def exMeta1 : PreparedMetadata := { col_specs := [], pk_indexes := [⟨1, 0⟩] }

/-- Bound values for `exMeta1`. -/
def exVals1 : SerializedValues := [some [1], some [5, 6]]

/-- A value one byte past the `u16` length-prefix limit. -/
def bigVal : Bytes := List.replicate 65536 0

/-- A one-byte value. -/
def smallVal : Bytes := [3]

/-- Single-component key at marker 0. -/
def singleMeta : PreparedMetadata := { col_specs := [], pk_indexes := [⟨0, 0⟩] }

/-- The over-long value bound to the single key component. -/
def singleBigVals : SerializedValues := [some bigVal]

/-- Two-component key in natural order. -/
def bigMeta : PreparedMetadata :=
  { col_specs := [], pk_indexes := [⟨0, 0⟩, ⟨1, 1⟩] }

/-- The over-long value as first component, a small one second. -/
def bigVals : SerializedValues := [some bigVal, some smallVal]

/-- Two-component key whose second marker index exceeds the supplied
value count. -/
def exMeta4 : PreparedMetadata :=
  { col_specs := [], pk_indexes := [⟨0, 0⟩, ⟨3, 1⟩] }

/-- A single bound value, too short for `exMeta4`. -/
def exVals4 : SerializedValues := [some [1]]

/-- Two-component key, bind order the reverse of key order. -/
def permMetaA : PreparedMetadata :=
  { col_specs := [], pk_indexes := [⟨0, 1⟩, ⟨1, 0⟩] }

/-- Bound values matching `permMetaA`. -/
def permValsA : SerializedValues := [some [7, 7, 7, 7], some [9, 9]]

/-- The same key with bind order permuted to match key order. -/
def permMetaB : PreparedMetadata :=
  { col_specs := [], pk_indexes := [⟨0, 0⟩, ⟨1, 1⟩] }

/-- Bound values matching `permMetaB`: the same components, reordered. -/
def permValsB : SerializedValues := [some [9, 9], some [7, 7, 7, 7]]

/-- Two-component key with a non-key bind marker between the components. -/
def exMeta6 : PreparedMetadata :=
  { col_specs := [], pk_indexes := [⟨0, 0⟩, ⟨2, 1⟩] }

/-- Bound values for `exMeta6`. -/
def exVals6 : SerializedValues := [some [1], some [2], some [3]]

/-- An override set with every field unset. -/
def exConfig : StatementConfig :=
  { consistency := none, serial_consistency := none, is_idempotent := false,
    tracing := false, timestamp := none, request_timeout := none,
    history_listener := none, execution_profile_handle := none }

/-- Statement text of the fixture statement. -/
def exText : String := "INSERT"

/-- A concrete prepared statement with a tracing id and a page size. -/
def exStatement : PreparedStatement :=
  { config := exConfig, prepare_tracing_ids := [⟨11⟩], id := [1, 2],
    metadata := exMeta1, statement := exText, page_size := some 5,
    partitioner_name := .murmur3, is_confirmed_lwt := false }

end Scylla

namespace Scylla

/-- The forward-cursor collection loop agrees with the naive direct-lookup
loop, provided the pending indexes are strictly ascending `u16`s at or
beyond the cursor position. -/
theorem pkLoop_eq_naiveLoop (pks : List PartitionKeyIndex) (values : SerializedValues)
    (values_len : Nat) :
    ∀ (consumed : Nat) (acc : List (Option Bytes)),
      List.Pairwise (fun a b => a.index < b.index) pks →
      (∀ pk ∈ pks, consumed ≤ pk.index) →
      (∀ pk ∈ pks, pk.index < 65536) →
      pkLoop pks (values.drop consumed) (consumed % 65536) values_len acc =
        naiveLoop pks values values_len acc := by
  induction pks with
  | nil => intro consumed acc _ _ _; rfl
  | cons pk rest ih =>
    intro consumed acc hsort hlo hhi
    have hle : consumed ≤ pk.index := hlo pk (by simp)
    have hidx : pk.index < 65536 := hhi pk (by simp)
    have hk : (pk.index + 65536 - consumed % 65536) % 65536 = pk.index - consumed := by
      omega
    have hdd : (values.drop consumed).drop (pk.index - consumed) = values.drop pk.index := by
      rw [List.drop_drop]; congr 1; omega
    simp only [pkLoop, naiveLoop, hk, hdd]
    rcases hdrop : values.drop pk.index with _ | ⟨v, tail⟩
    · have hnone : values[pk.index]? = none := by
        rw [← List.head?_drop, hdrop]; rfl
      rw [hnone]
    · have hsome : values[pk.index]? = some v := by
        rw [← List.head?_drop, hdrop]; rfl
      have htail : tail = values.drop (pk.index + 1) := by
        rw [← List.tail_drop, hdrop]; rfl
      rw [hsome, htail]
      have hrest' : List.Pairwise (fun a b => a.index < b.index) rest := hsort.of_cons
      have hlo' : ∀ q ∈ rest, pk.index + 1 ≤ q.index :=
        fun q hq => (List.pairwise_cons.mp hsort).1 q hq
      have hhi' : ∀ q ∈ rest, q.index < 65536 := fun q hq => hhi q (by simp [hq])
      cases v with
      | none => exact ih (pk.index + 1) acc hrest' hlo' hhi'
      | some w => exact ih (pk.index + 1) (acc.set pk.sequence (some w)) hrest' hlo' hhi'

end Scylla

namespace Scylla

/-- The checked collection loop never reports a wrap and agrees with the
wrapping loop, provided the pending indexes are strictly ascending and at
or beyond the cursor, and the value sequence respects the `i16` length
bound of `SerializedValues::len`. -/
theorem pkLoopChecked_eq (pks : List PartitionKeyIndex) (values : SerializedValues)
    (values_len : Nat) (hvl : values.length ≤ 32767) :
    ∀ (consumed : Nat) (acc : List (Option Bytes)),
      consumed ≤ 32767 →
      List.Pairwise (fun a b => a.index < b.index) pks →
      (∀ pk ∈ pks, consumed ≤ pk.index) →
      (∀ pk ∈ pks, pk.index < 65536) →
      pkLoopChecked pks (values.drop consumed) consumed values_len acc =
        some (pkLoop pks (values.drop consumed) (consumed % 65536) values_len acc) := by
  induction pks with
  | nil => intro consumed acc _ _ _ _; rfl
  | cons pk rest ih =>
    intro consumed acc hcb hsort hlo hhi
    have hle : consumed ≤ pk.index := hlo pk (by simp)
    have hidx : pk.index < 65536 := hhi pk (by simp)
    have hk : (pk.index + 65536 - consumed % 65536) % 65536 = pk.index - consumed := by
      omega
    have hnu : ¬ pk.index < consumed := by omega
    simp only [pkLoopChecked, pkLoop, hk, if_neg hnu]
    rcases hdrop : (values.drop consumed).drop (pk.index - consumed) with _ | ⟨v, tail⟩
    · rfl
    · have hdd : (values.drop consumed).drop (pk.index - consumed) = values.drop pk.index := by
        rw [List.drop_drop]; congr 1; omega
      have hsome : values[pk.index]? = some v := by
        rw [← List.head?_drop, ← hdd, hdrop]; rfl
      have hlt : pk.index < values.length := by
        rcases List.getElem?_eq_some_iff.mp hsome with ⟨h, _⟩
        exact h
      have hnov : ¬ 65535 < pk.index + 1 := by omega
      have htail : tail = values.drop (pk.index + 1) := by
        rw [← List.tail_drop, ← hdd, hdrop]; rfl
      have hrest' : List.Pairwise (fun a b => a.index < b.index) rest := hsort.of_cons
      have hlo' : ∀ q ∈ rest, pk.index + 1 ≤ q.index :=
        fun q hq => (List.pairwise_cons.mp hsort).1 q hq
      have hhi' : ∀ q ∈ rest, q.index < 65536 := fun q hq => hhi q (by simp [hq])
      have hcb' : pk.index + 1 ≤ 32767 := by omega
      cases v with
      | none =>
        show (if 65535 < pk.index + 1 then none
              else pkLoopChecked rest tail (pk.index + 1) values_len acc) =
            some (pkLoop rest tail ((pk.index + 1) % 65536) values_len acc)
        rw [if_neg hnov, htail]
        exact ih (pk.index + 1) acc hcb' hrest' hlo' hhi'
      | some w =>
        show (if 65535 < pk.index + 1 then none
              else pkLoopChecked rest tail (pk.index + 1) values_len
                (acc.set pk.sequence (some w))) =
            some (pkLoop rest tail ((pk.index + 1) % 65536) values_len
              (acc.set pk.sequence (some w)))
        rw [if_neg hnov, htail]
        exact ih (pk.index + 1) (acc.set pk.sequence (some w)) hcb' hrest' hlo' hhi'

/-- When every pending index has a bound-value slot, the naive loop
succeeds and is the fold of the slot updates. -/
theorem naiveLoop_ok (pks : List PartitionKeyIndex) (values : SerializedValues)
    (values_len : Nat) :
    ∀ acc : List (Option Bytes),
      (∀ pk ∈ pks, pk.index < values.length) →
      naiveLoop pks values values_len acc = .ok (pks.foldl (setSeq values) acc) := by
  induction pks with
  | nil => intro acc _; rfl
  | cons pk rest ih =>
    intro acc h
    have hlt : pk.index < values.length := h pk (by simp)
    rcases hv : values[pk.index]? with _ | v
    · rw [List.getElem?_eq_none_iff] at hv; omega
    · simp only [naiveLoop, hv, List.foldl_cons]
      cases v with
      | none =>
        have hstep : setSeq values acc pk = acc := by simp [setSeq, hv]
        rw [hstep]
        exact ih acc (fun q hq => h q (by simp [hq]))
      | some w =>
        have hstep : setSeq values acc pk = acc.set pk.sequence (some w) := by
          simp [setSeq, hv]
        rw [hstep]
        exact ih (acc.set pk.sequence (some w)) (fun q hq => h q (by simp [hq]))

/-- When a pending index has no bound-value slot and every earlier one
does, the naive loop fails with that index and the supplied length. -/
theorem naiveLoop_err (pre : List PartitionKeyIndex) (pk : PartitionKeyIndex)
    (post : List PartitionKeyIndex) (values : SerializedValues) (values_len : Nat) :
    ∀ acc : List (Option Bytes),
      (∀ q ∈ pre, q.index < values.length) →
      values.length ≤ pk.index →
      naiveLoop (pre ++ pk :: post) values values_len acc =
        .error (.NoPkIndexValue pk.index values_len) := by
  induction pre with
  | nil =>
    intro acc _ hpk
    have hnone : values[pk.index]? = none := List.getElem?_eq_none hpk
    simp only [List.nil_append, naiveLoop, hnone]
  | cons q pre ih =>
    intro acc h hpk
    have hlt : q.index < values.length := h q (by simp)
    rcases hv : values[q.index]? with _ | v
    · rw [List.getElem?_eq_none_iff] at hv; omega
    · simp only [List.cons_append, naiveLoop, hv]
      cases v with
      | none => exact ih acc (fun r hr => h r (by simp [hr])) hpk
      | some w => exact ih (acc.set q.sequence (some w)) (fun r hr => h r (by simp [hr])) hpk

end Scylla

namespace Scylla

/-- One slot update never changes the length of the slot array. -/
theorem setSeq_length (values : SerializedValues) (acc : List (Option Bytes))
    (pk : PartitionKeyIndex) : (setSeq values acc pk).length = acc.length := by
  rcases hv : values[pk.index]? with _ | o
  · simp [setSeq, hv]
  · rcases o with _ | v <;> simp [setSeq, hv]

/-- Folding slot updates never changes the length of the slot array. -/
theorem foldl_setSeq_length (values : SerializedValues) (pks : List PartitionKeyIndex) :
    ∀ acc : List (Option Bytes),
      (List.foldl (setSeq values) acc pks).length = acc.length := by
  induction pks with
  | nil => intro acc; rfl
  | cons pk rest ih =>
    intro acc
    rw [List.foldl_cons, ih (setSeq values acc pk), setSeq_length]

/-- A slot no pending `pk_index` targets keeps its content. -/
theorem foldl_setSeq_getElem_notin (values : SerializedValues) (s : Nat)
    (pks : List PartitionKeyIndex) :
    ∀ acc : List (Option Bytes), (∀ pk ∈ pks, pk.sequence ≠ s) →
      (List.foldl (setSeq values) acc pks)[s]? = acc[s]? := by
  induction pks with
  | nil => intro acc _; rfl
  | cons pk rest ih =>
    intro acc h
    rw [List.foldl_cons, ih (setSeq values acc pk) (fun q hq => h q (by simp [hq]))]
    rcases hv : values[pk.index]? with _ | o
    · simp [setSeq, hv]
    · rcases o with _ | v
      · simp [setSeq, hv]
      · simp only [setSeq, hv]
        exact List.getElem?_set_ne (h pk (by simp))

/-- Content of slot `s` after folding the updates for pairwise-distinct
sequence positions: the value of the unique `pk_index` with `sequence = s`
when it is present and non-null, the initial content otherwise. -/
theorem foldl_setSeq_getElem (values : SerializedValues) (s : Nat)
    (pks : List PartitionKeyIndex) :
    ∀ acc : List (Option Bytes),
      (pks.map PartitionKeyIndex.sequence).Nodup →
      (∀ pk ∈ pks, pk.sequence < acc.length) →
      (List.foldl (setSeq values) acc pks)[s]? =
        (match pks.find? (fun pk => pk.sequence == s) with
         | some pk =>
           (match values[pk.index]? with
            | some (some v) => some (some v)
            | some none => acc[s]?
            | none => acc[s]?)
         | none => acc[s]?) := by
  induction pks with
  | nil => intro acc _ _; rfl
  | cons pk rest ih =>
    intro acc hnodup hlen
    rw [List.map_cons, List.nodup_cons] at hnodup
    have hnd := hnodup
    rw [List.foldl_cons]
    by_cases hs : pk.sequence = s
    · rw [List.find?_cons_of_pos _ (by simp [hs])]
      have hrest_ne : ∀ q ∈ rest, q.sequence ≠ s := by
        intro q hq hqs
        exact hnd.1 (hs ▸ hqs ▸ List.mem_map_of_mem PartitionKeyIndex.sequence hq)
      rw [foldl_setSeq_getElem_notin values s rest (setSeq values acc pk) hrest_ne]
      subst hs
      rcases hv : values[pk.index]? with _ | o
      · simp [setSeq, hv]
      · rcases o with _ | v
        · simp [setSeq, hv]
        · simp only [setSeq, hv]
          exact List.getElem?_set_eq_of_lt (some v) (hlen pk (by simp))
    · rw [List.find?_cons_of_neg _ (by simp [hs])]
      have hacc : (setSeq values acc pk)[s]? = acc[s]? := by
        rcases hv : values[pk.index]? with _ | o
        · simp [setSeq, hv]
        · rcases o with _ | v
          · simp [setSeq, hv]
          · simp only [setSeq, hv]
            exact List.getElem?_set_ne hs
      rw [ih (setSeq values acc pk) hnd.2
        (fun q hq => by rw [setSeq_length]; exact hlen q (by simp [hq]))]
      rcases hf : rest.find? (fun q => q.sequence == s) with _ | q
      · simp only [hf]
        exact hacc
      · simp only [hf]
        rcases hv' : values[q.index]? with _ | o
        · simp only [hv']
          exact hacc
        · rcases o with _ | v
          · simp only [hv']
            exact hacc
          · simp only [hv']

end Scylla

namespace Scylla

/-- When every component fits the `u16` length prefix, emission succeeds
with the concatenation of the serialized components. -/
theorem emitPk_all_ok (l : List Bytes) (h : ∀ v ∈ l, v.length ≤ 65535) :
    emitPk l = .ok (concatComponents l) := by
  induction l with
  | nil => rfl
  | cons v rest ih =>
    have hv : ¬ 65535 < v.length := by
      have := h v (by simp); omega
    rw [emitPk, if_neg hv, ih (fun w hw => h w (by simp [hw]))]
    simp [concatComponents, pkComponentBytes, List.append_assoc]

/-- Emission fails with `ValueTooLong` at the first over-long component. -/
theorem emitPk_err (pre : List Bytes) (c : Bytes) (post : List Bytes)
    (hpre : ∀ v ∈ pre, v.length ≤ 65535) (hc : 65535 < c.length) :
    emitPk (pre ++ c :: post) = .error (.ValueTooLong c.length) := by
  induction pre with
  | nil => simp [emitPk, hc]
  | cons v pre ih =>
    have hv : ¬ 65535 < v.length := by
      have := hpre v (by simp); omega
    rw [List.cons_append, emitPk, if_neg hv, ih (fun w hw => hpre w (by simp [hw]))]

/-- The slot array produced by the collection loop, read off in slot
order: slot `s` holds exactly `componentInSeq meta values s`. -/
theorem foldl_setSeq_eq_map (meta : PreparedMetadata) (values : SerializedValues)
    (hnodup : (meta.pk_indexes.map PartitionKeyIndex.sequence).Nodup)
    (hseq : ∀ pk ∈ meta.pk_indexes, pk.sequence < meta.pk_indexes.length) :
    List.foldl (setSeq values) (List.replicate meta.pk_indexes.length none)
        meta.pk_indexes =
      (List.range meta.pk_indexes.length).map (componentInSeq meta values) := by
  apply List.ext_getElem?
  intro s
  by_cases hlt : s < meta.pk_indexes.length
  · rw [foldl_setSeq_getElem values s meta.pk_indexes
      (List.replicate meta.pk_indexes.length none) hnodup
      (fun pk hpk => by rw [List.length_replicate]; exact hseq pk hpk)]
    have hrepl : (List.replicate meta.pk_indexes.length
        (none : Option Bytes))[s]? = some none := by
      simp [List.getElem?_replicate, hlt]
    have hrange : ((List.range meta.pk_indexes.length).map
        (componentInSeq meta values))[s]? = some (componentInSeq meta values s) := by
      rw [List.getElem?_map]
      simp [List.getElem?_range, hlt]
    rw [hrange, hrepl]
    unfold componentInSeq
    rcases hf : meta.pk_indexes.find? (fun pk => pk.sequence == s) with _ | pk
    · simp only [hf]
    · simp only [hf]
      rcases hv : values[pk.index]? with _ | o
      · simp only [hv, Option.join]
        rfl
      · rcases o with _ | v
        · simp only [hv, Option.join]
          rfl
        · simp only [hv, Option.join]
          rfl
  · have hlen : (List.foldl (setSeq values)
        (List.replicate meta.pk_indexes.length none) meta.pk_indexes).length =
        meta.pk_indexes.length := by
      rw [foldl_setSeq_length, List.length_replicate]
    rw [List.getElem?_eq_none (by omega : _ ≤ s),
      List.getElem?_eq_none]
    rw [List.length_map, List.length_range]
    omega

/-- The composite path of `compute_partition_key` is the emission of the
non-null components in ascending `sequence` order. -/
theorem compute_composite_eq_emit (meta : PreparedMetadata) (values : SerializedValues)
    (hne1 : meta.pk_indexes.length ≠ 1)
    (hsort : List.Pairwise (fun a b => a.index < b.index) meta.pk_indexes)
    (hhi : ∀ pk ∈ meta.pk_indexes, pk.index < 65536)
    (hslots : ∀ pk ∈ meta.pk_indexes, pk.index < values.length)
    (hnodup : (meta.pk_indexes.map PartitionKeyIndex.sequence).Nodup)
    (hseq : ∀ pk ∈ meta.pk_indexes, pk.sequence < meta.pk_indexes.length) :
    compute_partition_key meta values = emitPk (seqComponents meta values) := by
  unfold compute_partition_key
  rw [if_neg hne1]
  have hloop : pkLoop meta.pk_indexes values 0 values.length
      (List.replicate meta.pk_indexes.length none) =
      naiveLoop meta.pk_indexes values values.length
        (List.replicate meta.pk_indexes.length none) := by
    have := pkLoop_eq_naiveLoop meta.pk_indexes values values.length 0
      (List.replicate meta.pk_indexes.length none) hsort
      (fun q _ => Nat.zero_le _) hhi
    simpa using this
  rw [hloop, naiveLoop_ok meta.pk_indexes values values.length
    (List.replicate meta.pk_indexes.length none) hslots,
    foldl_setSeq_eq_map meta values hnodup hseq]
  simp only [seqComponents, List.filterMap_map]
  rfl

end Scylla

namespace Scylla

/-- The fixture value `bigVal` has length 65536. -/
theorem bigVal_length : bigVal.length = 65536 := by
  unfold bigVal
  exact List.length_replicate 65536 0

/-- C1: for metadata with at least two partition-key components,
`pk_indexes` sorted ascending by `index` (indexes being `u16`s) and
`sequence` a permutation of `0..len`, and a bound-value sequence supplying
a slot for every listed index whose non-null payloads fit the `u16` length
prefix, `compute_partition_key` returns `Ok` of the concatenation, in
ascending `sequence` order, of `(u16 big-endian length, raw bytes, 0x00)`
for each non-null component; a present-but-null component contributes no
bytes at all. -/
theorem composite_key_serialization (meta : PreparedMetadata) (values : SerializedValues)
    (h2 : 2 ≤ meta.pk_indexes.length)
    (hsort : List.Pairwise (fun a b => a.index < b.index) meta.pk_indexes)
    (hhi : ∀ pk ∈ meta.pk_indexes, pk.index < 65536)
    (hperm : (meta.pk_indexes.map PartitionKeyIndex.sequence).Perm
      (List.range meta.pk_indexes.length))
    (hslots : ∀ pk ∈ meta.pk_indexes, pk.index < values.length)
    (hfit : ∀ pk ∈ meta.pk_indexes, (((values[pk.index]?).join).getD []).length ≤ 65535) :
    compute_partition_key meta values = .ok (expectedCompositeBytes meta values) := by
  have hnodup : (meta.pk_indexes.map PartitionKeyIndex.sequence).Nodup :=
    hperm.nodup_iff.mpr (List.nodup_range _)
  have hseq : ∀ pk ∈ meta.pk_indexes, pk.sequence < meta.pk_indexes.length := by
    intro pk hpk
    have hmem : pk.sequence ∈ List.range meta.pk_indexes.length :=
      hperm.mem_iff.mp (List.mem_map_of_mem _ hpk)
    simpa using hmem
  rw [compute_composite_eq_emit meta values (by omega) hsort hhi hslots hnodup hseq]
  apply emitPk_all_ok
  intro v hv
  unfold seqComponents at hv
  rcases List.mem_filterMap.mp hv with ⟨s, _, hcomp⟩
  unfold componentInSeq at hcomp
  rcases hf : meta.pk_indexes.find? (fun pk => pk.sequence == s) with _ | pk
  · simp only [hf] at hcomp
    exact absurd hcomp (by simp)
  · simp only [hf] at hcomp
    have hpk : pk ∈ meta.pk_indexes := List.mem_of_find?_eq_some hf
    have hfitpk := hfit pk hpk
    rw [hcomp] at hfitpk
    simpa using hfitpk

/-- C1 witness: key order `(seq 0 ↦ marker 1, seq 1 ↦ marker 0,
seq 2 ↦ marker 2)`, third component null: output is
`(len 2, [8,9], 0)` then `(len 1, [7], 0)` and nothing for the null. -/
theorem composite_key_serialization_witness :
    compute_partition_key exMeta3 exVals3 = .ok [0, 2, 8, 9, 0, 0, 1, 7, 0] := by
  rw [composite_key_serialization exMeta3 exVals3 (by decide) (by decide) (by decide)
    (by decide) (by decide) (by decide)]
  rfl

/-- C2: with exactly one `pk_index`, `compute_partition_key` returns the
raw bytes of the bound value at that index with no framing (`[]` when the
value is bound null), and `NoPkIndexValue(index, values.len())` when the
sequence has no slot at that index. -/
theorem single_column_fast_path (meta : PreparedMetadata) (values : SerializedValues)
    (pk : PartitionKeyIndex) (h1 : meta.pk_indexes = [pk]) :
    (∀ v, values[pk.index]? = some (some v) →
      compute_partition_key meta values = .ok v) ∧
    (values[pk.index]? = some none → compute_partition_key meta values = .ok []) ∧
    (values[pk.index]? = none →
      compute_partition_key meta values = .error (.NoPkIndexValue pk.index values.length)) := by
  unfold compute_partition_key
  rw [h1]
  refine ⟨fun v hv => ?_, fun hv => ?_, fun hv => ?_⟩ <;> simp [hv]

/-- C2 witness: single key column at marker 1; the output is the raw
bytes of the second bound value, unframed. -/
theorem single_column_fast_path_witness :
    compute_partition_key exMeta1 exVals1 = .ok [5, 6] :=
  (single_column_fast_path exMeta1 exVals1 ⟨1, 0⟩ rfl).1 [5, 6] rfl

/-- C3 counterexample: a single-column key component of length 65536 is
returned as-is — `Ok`, not `Err(ValueTooLong(65536))` — because the
single-component fast path of `compute_partition_key` applies no length
check, contradicting the claim for single-column keys. -/
theorem single_column_overlong_counterexample :
    bigVal.length = 65536 ∧
    compute_partition_key singleMeta singleBigVals = .ok bigVal ∧
    compute_partition_key singleMeta singleBigVals ≠
      .error (.ValueTooLong 65536) := by
  have h2 : compute_partition_key singleMeta singleBigVals = .ok bigVal := rfl
  refine ⟨bigVal_length, h2, ?_⟩
  rw [h2]
  intro h
  exact Except.noConfusion h

/-- C3 (amended): in the composite path (at least two components), every
component of length at most 65535 (in particular exactly 65535) is
serialized successfully, and an over-long component makes the whole call
fail with `ValueTooLong` carrying that component's length, checked
per component in `sequence` order during emission; the single-column fast
path applies no length check and returns the raw bytes unconditionally. -/
theorem value_too_long_per_component (meta : PreparedMetadata) (values : SerializedValues)
    (h2 : 2 ≤ meta.pk_indexes.length)
    (hsort : List.Pairwise (fun a b => a.index < b.index) meta.pk_indexes)
    (hhi : ∀ pk ∈ meta.pk_indexes, pk.index < 65536)
    (hperm : (meta.pk_indexes.map PartitionKeyIndex.sequence).Perm
      (List.range meta.pk_indexes.length))
    (hslots : ∀ pk ∈ meta.pk_indexes, pk.index < values.length) :
    ((∀ v ∈ seqComponents meta values, v.length ≤ 65535) →
      compute_partition_key meta values = .ok (expectedCompositeBytes meta values)) ∧
    (∀ pre c post, seqComponents meta values = pre ++ c :: post →
      (∀ v ∈ pre, v.length ≤ 65535) → 65535 < c.length →
      compute_partition_key meta values = .error (.ValueTooLong c.length)) ∧
    (∀ (meta1 : PreparedMetadata) (values1 : SerializedValues)
      (pk : PartitionKeyIndex) (v : Bytes), meta1.pk_indexes = [pk] →
      values1[pk.index]? = some (some v) →
      compute_partition_key meta1 values1 = .ok v) := by
  have hnodup : (meta.pk_indexes.map PartitionKeyIndex.sequence).Nodup :=
    hperm.nodup_iff.mpr (List.nodup_range _)
  have hseq : ∀ pk ∈ meta.pk_indexes, pk.sequence < meta.pk_indexes.length := by
    intro pk hpk
    have hmem : pk.sequence ∈ List.range meta.pk_indexes.length :=
      hperm.mem_iff.mp (List.mem_map_of_mem _ hpk)
    simpa using hmem
  have hemit := compute_composite_eq_emit meta values (by omega) hsort hhi hslots hnodup hseq
  refine ⟨fun hfit => ?_, fun pre c post hsplit hpre hc => ?_,
    fun meta1 values1 pk v h1 hv => ?_⟩
  · rw [hemit]
    exact emitPk_all_ok _ hfit
  · rw [hemit, hsplit]
    exact emitPk_err pre c post hpre hc
  · unfold compute_partition_key
    rw [h1]
    simp [hv]

/-- C3 (amended) witness: the first-in-sequence component has length
65536, so the composite call fails with `ValueTooLong(65536)`. -/
theorem value_too_long_per_component_witness :
    compute_partition_key bigMeta bigVals = .error (.ValueTooLong 65536) := by
  have h := (value_too_long_per_component bigMeta bigVals (by decide) (by decide)
    (by decide) (by decide) (by decide)).2.1 [] bigVal [smallVal] rfl
    (by simp) (by rw [bigVal_length]; omega)
  rw [bigVal_length] at h
  exact h

end Scylla

namespace Scylla

/-- C4: with `pk_indexes` sorted ascending (indexes being `u16`s), when
the bound-value sequence is too short to reach a declared key index — the
listed indexes split as `pre ++ pk :: post` with every index in `pre`
covered and `pk.index` beyond the end — `compute_partition_key` returns
`Err(NoPkIndexValue(pk.index, values.len()))`, and nothing else. -/
theorem missing_value_error (meta : PreparedMetadata) (values : SerializedValues)
    (pre : List PartitionKeyIndex) (pk : PartitionKeyIndex)
    (post : List PartitionKeyIndex)
    (hsplit : meta.pk_indexes = pre ++ pk :: post)
    (hsort : List.Pairwise (fun a b => a.index < b.index) meta.pk_indexes)
    (hhi : ∀ q ∈ meta.pk_indexes, q.index < 65536)
    (hpre : ∀ q ∈ pre, q.index < values.length)
    (hpk : values.length ≤ pk.index) :
    compute_partition_key meta values =
      .error (.NoPkIndexValue pk.index values.length) := by
  by_cases h1 : meta.pk_indexes.length = 1
  · have hpre0 : pre = [] := by
      rcases pre with _ | ⟨a, pre⟩
      · rfl
      · exfalso
        rw [hsplit] at h1
        simp at h1
    have hpost0 : post = [] := by
      rcases post with _ | ⟨a, post⟩
      · rfl
      · exfalso
        rw [hsplit, hpre0] at h1
        simp at h1
    rw [hpre0, List.nil_append, hpost0] at hsplit
    unfold compute_partition_key
    rw [hsplit]
    simp [List.getElem?_eq_none hpk]
  · unfold compute_partition_key
    rw [if_neg h1]
    have hloop : pkLoop meta.pk_indexes values 0 values.length
        (List.replicate meta.pk_indexes.length none) =
        naiveLoop meta.pk_indexes values values.length
          (List.replicate meta.pk_indexes.length none) := by
      have h := pkLoop_eq_naiveLoop meta.pk_indexes values values.length 0
        (List.replicate meta.pk_indexes.length none) hsort
        (fun q _ => Nat.zero_le _) hhi
      simpa using h
    rw [hloop, hsplit, naiveLoop_err pre pk post values values.length
      (List.replicate (pre ++ pk :: post).length none) hpre hpk]

/-- C4 witness: key markers 0 and 3 with only one bound value: the call
fails with `NoPkIndexValue(3, 1)`. -/
theorem missing_value_error_witness :
    compute_partition_key exMeta4 exVals4 = .error (.NoPkIndexValue 3 1) := by
  have h := missing_value_error exMeta4 exVals4 [⟨0, 0⟩] ⟨3, 1⟩ [] rfl (by decide)
    (by decide) (by decide) (by decide)
  simpa [exVals4] using h

/-- C5: for two well-formed composite-key metadatas of the same width
whose sequence slots carry the same components — permuting which bind
marker each sequence position is attached to and reordering the bound
values correspondingly — `compute_partition_key` produces identical
results: the output depends only on the `sequence` assignment, never on
the `index` ordering. -/
theorem index_permutation_invariance (metaA metaB : PreparedMetadata)
    (valuesA valuesB : SerializedValues)
    (h2 : 2 ≤ metaA.pk_indexes.length)
    (hlen : metaB.pk_indexes.length = metaA.pk_indexes.length)
    (hsortA : List.Pairwise (fun a b => a.index < b.index) metaA.pk_indexes)
    (hhiA : ∀ pk ∈ metaA.pk_indexes, pk.index < 65536)
    (hpermA : (metaA.pk_indexes.map PartitionKeyIndex.sequence).Perm
      (List.range metaA.pk_indexes.length))
    (hslotsA : ∀ pk ∈ metaA.pk_indexes, pk.index < valuesA.length)
    (hsortB : List.Pairwise (fun a b => a.index < b.index) metaB.pk_indexes)
    (hhiB : ∀ pk ∈ metaB.pk_indexes, pk.index < 65536)
    (hpermB : (metaB.pk_indexes.map PartitionKeyIndex.sequence).Perm
      (List.range metaB.pk_indexes.length))
    (hslotsB : ∀ pk ∈ metaB.pk_indexes, pk.index < valuesB.length)
    (hcomp : ∀ s ∈ List.range metaA.pk_indexes.length,
      componentInSeq metaA valuesA s = componentInSeq metaB valuesB s) :
    compute_partition_key metaA valuesA = compute_partition_key metaB valuesB := by
  have hnodupA : (metaA.pk_indexes.map PartitionKeyIndex.sequence).Nodup :=
    hpermA.nodup_iff.mpr (List.nodup_range _)
  have hseqA : ∀ pk ∈ metaA.pk_indexes, pk.sequence < metaA.pk_indexes.length := by
    intro pk hpk
    have hmem : pk.sequence ∈ List.range metaA.pk_indexes.length :=
      hpermA.mem_iff.mp (List.mem_map_of_mem _ hpk)
    simpa using hmem
  have hnodupB : (metaB.pk_indexes.map PartitionKeyIndex.sequence).Nodup :=
    hpermB.nodup_iff.mpr (List.nodup_range _)
  have hseqB : ∀ pk ∈ metaB.pk_indexes, pk.sequence < metaB.pk_indexes.length := by
    intro pk hpk
    have hmem : pk.sequence ∈ List.range metaB.pk_indexes.length :=
      hpermB.mem_iff.mp (List.mem_map_of_mem _ hpk)
    simpa using hmem
  rw [compute_composite_eq_emit metaA valuesA (by omega) hsortA hhiA hslotsA hnodupA hseqA,
    compute_composite_eq_emit metaB valuesB (by omega) hsortB hhiB hslotsB hnodupB hseqB]
  unfold seqComponents
  rw [hlen]
  exact congrArg emitPk (List.filterMap_congr hcomp)

/-- C5 witness: the same two components attached once as
`(marker 0 ↦ seq 1, marker 1 ↦ seq 0)` with values `(X, Y)` and once as
`(marker 0 ↦ seq 0, marker 1 ↦ seq 1)` with values `(Y, X)`: identical
output. -/
theorem index_permutation_invariance_witness :
    compute_partition_key permMetaA permValsA = compute_partition_key permMetaB permValsB :=
  index_permutation_invariance permMetaA permMetaB permValsA permValsB (by decide)
    (by decide) (by decide) (by decide) (by decide) (by decide) (by decide) (by decide)
    (by decide) (by decide) (by decide)

/-- C6: for metadata with `pk_indexes` sorted ascending by `index`
(indexes being `u16`s) and any bound-value sequence, the forward-cursor
lookup of `compute_partition_key` returns the same result — same `Ok`
bytes or same error — as the naive reference that looks each value up
directly at position `pk_index.index` from the start. -/
theorem forward_cursor_refines_naive (meta : PreparedMetadata) (values : SerializedValues)
    (hsort : List.Pairwise (fun a b => a.index < b.index) meta.pk_indexes)
    (hhi : ∀ pk ∈ meta.pk_indexes, pk.index < 65536) :
    compute_partition_key meta values = compute_partition_key_naive meta values := by
  unfold compute_partition_key compute_partition_key_naive
  by_cases h1 : meta.pk_indexes.length = 1
  · rw [if_pos h1, if_pos h1]
  · rw [if_neg h1, if_neg h1]
    have hloop : pkLoop meta.pk_indexes values 0 values.length
        (List.replicate meta.pk_indexes.length none) =
        naiveLoop meta.pk_indexes values values.length
          (List.replicate meta.pk_indexes.length none) := by
      have h := pkLoop_eq_naiveLoop meta.pk_indexes values values.length 0
        (List.replicate meta.pk_indexes.length none) hsort
        (fun q _ => Nat.zero_le _) hhi
      simpa using h
    rw [hloop]

/-- C6 witness: a composite key with a non-key marker between the two key
markers; cursor-based and naive lookup agree. -/
theorem forward_cursor_refines_naive_witness :
    compute_partition_key exMeta6 exVals6 = compute_partition_key_naive exMeta6 exVals6 :=
  forward_cursor_refines_naive exMeta6 exVals6 (by decide) (by decide)

end Scylla

namespace Scylla

/-- C7: duplicating a `PreparedStatement` copies id, metadata, statement
text, page size, partitioner name, LWT flag and the whole override set,
while the duplicate's `prepare_tracing_ids` is empty regardless of the
original's; each override setter applied to the duplicate produces an
override set differing from the original's only in its own field (the
original, a pure value in this embedding, is untouched by construction). -/
theorem clone_semantics (s : PreparedStatement) :
    s.clone.id = s.id ∧
    s.clone.metadata = s.metadata ∧
    s.clone.statement = s.statement ∧
    s.clone.page_size = s.page_size ∧
    s.clone.partitioner_name = s.partitioner_name ∧
    s.clone.is_confirmed_lwt = s.is_confirmed_lwt ∧
    s.clone.config = s.config ∧
    s.clone.prepare_tracing_ids = [] ∧
    (∀ c, (s.clone.set_consistency c).config =
      { s.config with consistency := some c }) ∧
    (∀ sc, (s.clone.set_serial_consistency sc).config =
      { s.config with serial_consistency := some sc }) ∧
    (∀ b, (s.clone.set_is_idempotent b).config =
      { s.config with is_idempotent := b }) ∧
    (∀ b, (s.clone.set_tracing b).config = { s.config with tracing := b }) ∧
    (∀ t, (s.clone.set_timestamp t).config = { s.config with timestamp := t }) ∧
    (∀ d, (s.clone.set_request_timeout d).config =
      { s.config with request_timeout := d }) ∧
    (∀ hl, (s.clone.set_history_listener hl).config =
      { s.config with history_listener := some hl }) ∧
    (∀ p, (s.clone.set_execution_profile_handle p).config =
      { s.config with execution_profile_handle := p }) ∧
    (∀ c, (s.clone.set_consistency c).id = s.id ∧
      (s.clone.set_consistency c).metadata = s.metadata ∧
      (s.clone.set_consistency c).page_size = s.page_size ∧
      (s.clone.set_consistency c).prepare_tracing_ids = []) :=
  ⟨rfl, rfl, rfl, rfl, rfl, rfl, rfl, rfl, fun _ => rfl, fun _ => rfl, fun _ => rfl,
    fun _ => rfl, fun _ => rfl, fun _ => rfl, fun _ => rfl, fun _ => rfl,
    fun _ => ⟨rfl, rfl, rfl, rfl⟩⟩

/-- C8: `page_size`-if-present-positive is established at construction
(for any constructor argument satisfying it, the only arguments the
driver's call sites produce) and preserved by every operation:
`set_page_size(n)` aborts (modelled `none`) exactly when `n ≤ 0` and
otherwise overwrites the field with `some n`; `disable_paging` clears it;
no other operation touches `page_size`; hence `get_page_size` never
returns a non-positive size. -/
theorem page_size_invariant :
    (∀ (s : PreparedStatement) (n : Int), n ≤ 0 →
      PreparedStatement.set_page_size s n = none) ∧
    (∀ (s : PreparedStatement) (n : Int), 0 < n →
      PreparedStatement.set_page_size s n = some { s with page_size := some n }) ∧
    (∀ (s s2 : PreparedStatement) (n : Int),
      PreparedStatement.set_page_size s n = some s2 → pageInv s2) ∧
    (∀ s : PreparedStatement, (PreparedStatement.disable_paging s).page_size = none) ∧
    (∀ s : PreparedStatement, pageInv (PreparedStatement.disable_paging s)) ∧
    (∀ (i : Bytes) (lwt : Bool) (md : PreparedMetadata) (st : String)
      (ps : Option Int) (cfg : StatementConfig), (∀ k, ps = some k → 0 < k) →
      pageInv (PreparedStatement.new i lwt md st ps cfg)) ∧
    (∀ (s : PreparedStatement) (c : Consistency),
      (PreparedStatement.set_consistency s c).page_size = s.page_size) ∧
    (∀ (s : PreparedStatement) (sc : Option SerialConsistency),
      (PreparedStatement.set_serial_consistency s sc).page_size = s.page_size) ∧
    (∀ (s : PreparedStatement) (b : Bool),
      (PreparedStatement.set_is_idempotent s b).page_size = s.page_size) ∧
    (∀ (s : PreparedStatement) (b : Bool),
      (PreparedStatement.set_tracing s b).page_size = s.page_size) ∧
    (∀ (s : PreparedStatement) (t : Option Int),
      (PreparedStatement.set_timestamp s t).page_size = s.page_size) ∧
    (∀ (s : PreparedStatement) (d : Option Duration),
      (PreparedStatement.set_request_timeout s d).page_size = s.page_size) ∧
    (∀ (s : PreparedStatement) (hl : HistoryListener),
      (PreparedStatement.set_history_listener s hl).page_size = s.page_size) ∧
    (∀ s : PreparedStatement,
      (PreparedStatement.remove_history_listener s).2.page_size = s.page_size) ∧
    (∀ (s : PreparedStatement) (p : Option ExecutionProfileHandle),
      (PreparedStatement.set_execution_profile_handle s p).page_size = s.page_size) ∧
    (∀ (s : PreparedStatement) (p : PartitionerName),
      (PreparedStatement.set_partitioner_name s p).page_size = s.page_size) ∧
    (∀ s : PreparedStatement, s.clone.page_size = s.page_size) ∧
    (∀ s : PreparedStatement, pageInv s →
      ∀ k, PreparedStatement.get_page_size s = some k → 0 < k) := by
  refine ⟨fun s n hn => ?_, fun s n hn => ?_, fun s s2 n h => ?_, fun s => rfl,
    fun s k hk => ?_, fun i lwt md st ps cfg hps k hk => hps k hk,
    fun s c => rfl, fun s sc => rfl, fun s b => rfl, fun s b => rfl, fun s t => rfl,
    fun s d => rfl, fun s hl => rfl, fun s => rfl, fun s p => rfl, fun s p => rfl,
    fun s => rfl, fun s hinv k hk => hinv k hk⟩
  · unfold PreparedStatement.set_page_size
    rw [if_neg (by omega)]
  · unfold PreparedStatement.set_page_size
    rw [if_pos hn]
  · unfold PreparedStatement.set_page_size at h
    by_cases hn : 0 < n
    · rw [if_pos hn] at h
      injection h with h
      subst h
      intro k hk
      simp at hk
      omega
    · rw [if_neg hn] at h
      exact absurd h (by simp)
  · simp [PreparedStatement.disable_paging] at hk

/-- C8 witness: on the fixture statement, `set_page_size 0` aborts,
`set_page_size 7` overwrites, paging can be disabled, and the returned
page size is positive. -/
theorem page_size_invariant_witness :
    PreparedStatement.set_page_size exStatement 0 = none ∧
    PreparedStatement.set_page_size exStatement 7 =
      some { exStatement with page_size := some 7 } ∧
    pageInv (PreparedStatement.disable_paging exStatement) ∧
    (∀ k, PreparedStatement.get_page_size exStatement = some k → 0 < k) := by
  obtain ⟨h1, h2, h3, h4, h5, h6, h7, h8, h9, h10, h11, h12, h13, h14, h15, h16,
    h17, h18⟩ := page_size_invariant
  refine ⟨h1 exStatement 0 (by omega), h2 exStatement 7 (by omega),
    h5 exStatement, h18 exStatement ?_⟩
  intro k hk
  rw [show exStatement.page_size = some 5 from rfl] at hk
  injection hk with hk
  omega

end Scylla

namespace Scylla

/-- C9 counterexample: two calls to the same setter with different
arguments do not commute — `set_consistency 1` then `set_consistency 2`
differs from the reverse order — so "every pair of override setter calls,
any arguments, in either order" fails on the code. -/
theorem setter_commutation_counterexample :
    PreparedStatement.set_consistency
        (PreparedStatement.set_consistency exStatement ⟨1⟩) ⟨2⟩ ≠
      PreparedStatement.set_consistency
        (PreparedStatement.set_consistency exStatement ⟨2⟩) ⟨1⟩ := by
  decide

/-- C9 (amended): any two calls to two distinct override setters commute
(each setter fully overwrites only its own field), and a repeated call to
the same setter fully overwrites, so the final state is that of the later
call alone. -/
theorem distinct_setters_commute :
    (∀ (s : PreparedStatement) (x : Consistency) (y : Option SerialConsistency),
      PreparedStatement.set_serial_consistency (PreparedStatement.set_consistency s x) y =
        PreparedStatement.set_consistency (PreparedStatement.set_serial_consistency s y) x) ∧
    (∀ (s : PreparedStatement) (x : Consistency) (y : Bool),
      PreparedStatement.set_is_idempotent (PreparedStatement.set_consistency s x) y =
        PreparedStatement.set_consistency (PreparedStatement.set_is_idempotent s y) x) ∧
    (∀ (s : PreparedStatement) (x : Consistency) (y : Bool),
      PreparedStatement.set_tracing (PreparedStatement.set_consistency s x) y =
        PreparedStatement.set_consistency (PreparedStatement.set_tracing s y) x) ∧
    (∀ (s : PreparedStatement) (x : Consistency) (y : Option Int),
      PreparedStatement.set_timestamp (PreparedStatement.set_consistency s x) y =
        PreparedStatement.set_consistency (PreparedStatement.set_timestamp s y) x) ∧
    (∀ (s : PreparedStatement) (x : Consistency) (y : Option Duration),
      PreparedStatement.set_request_timeout (PreparedStatement.set_consistency s x) y =
        PreparedStatement.set_consistency (PreparedStatement.set_request_timeout s y) x) ∧
    (∀ (s : PreparedStatement) (x : Consistency) (y : HistoryListener),
      PreparedStatement.set_history_listener (PreparedStatement.set_consistency s x) y =
        PreparedStatement.set_consistency (PreparedStatement.set_history_listener s y) x) ∧
    (∀ (s : PreparedStatement) (x : Consistency) (y : Option ExecutionProfileHandle),
      PreparedStatement.set_execution_profile_handle (PreparedStatement.set_consistency s x) y =
        PreparedStatement.set_consistency (PreparedStatement.set_execution_profile_handle s y) x) ∧
    (∀ (s : PreparedStatement) (x : Option SerialConsistency) (y : Bool),
      PreparedStatement.set_is_idempotent (PreparedStatement.set_serial_consistency s x) y =
        PreparedStatement.set_serial_consistency (PreparedStatement.set_is_idempotent s y) x) ∧
    (∀ (s : PreparedStatement) (x : Option SerialConsistency) (y : Bool),
      PreparedStatement.set_tracing (PreparedStatement.set_serial_consistency s x) y =
        PreparedStatement.set_serial_consistency (PreparedStatement.set_tracing s y) x) ∧
    (∀ (s : PreparedStatement) (x : Option SerialConsistency) (y : Option Int),
      PreparedStatement.set_timestamp (PreparedStatement.set_serial_consistency s x) y =
        PreparedStatement.set_serial_consistency (PreparedStatement.set_timestamp s y) x) ∧
    (∀ (s : PreparedStatement) (x : Option SerialConsistency) (y : Option Duration),
      PreparedStatement.set_request_timeout (PreparedStatement.set_serial_consistency s x) y =
        PreparedStatement.set_serial_consistency (PreparedStatement.set_request_timeout s y) x) ∧
    (∀ (s : PreparedStatement) (x : Option SerialConsistency) (y : HistoryListener),
      PreparedStatement.set_history_listener (PreparedStatement.set_serial_consistency s x) y =
        PreparedStatement.set_serial_consistency (PreparedStatement.set_history_listener s y) x) ∧
    (∀ (s : PreparedStatement) (x : Option SerialConsistency) (y : Option ExecutionProfileHandle),
      PreparedStatement.set_execution_profile_handle (PreparedStatement.set_serial_consistency s x) y =
        PreparedStatement.set_serial_consistency (PreparedStatement.set_execution_profile_handle s y) x) ∧
    (∀ (s : PreparedStatement) (x : Bool) (y : Bool),
      PreparedStatement.set_tracing (PreparedStatement.set_is_idempotent s x) y =
        PreparedStatement.set_is_idempotent (PreparedStatement.set_tracing s y) x) ∧
    (∀ (s : PreparedStatement) (x : Bool) (y : Option Int),
      PreparedStatement.set_timestamp (PreparedStatement.set_is_idempotent s x) y =
        PreparedStatement.set_is_idempotent (PreparedStatement.set_timestamp s y) x) ∧
    (∀ (s : PreparedStatement) (x : Bool) (y : Option Duration),
      PreparedStatement.set_request_timeout (PreparedStatement.set_is_idempotent s x) y =
        PreparedStatement.set_is_idempotent (PreparedStatement.set_request_timeout s y) x) ∧
    (∀ (s : PreparedStatement) (x : Bool) (y : HistoryListener),
      PreparedStatement.set_history_listener (PreparedStatement.set_is_idempotent s x) y =
        PreparedStatement.set_is_idempotent (PreparedStatement.set_history_listener s y) x) ∧
    (∀ (s : PreparedStatement) (x : Bool) (y : Option ExecutionProfileHandle),
      PreparedStatement.set_execution_profile_handle (PreparedStatement.set_is_idempotent s x) y =
        PreparedStatement.set_is_idempotent (PreparedStatement.set_execution_profile_handle s y) x) ∧
    (∀ (s : PreparedStatement) (x : Bool) (y : Option Int),
      PreparedStatement.set_timestamp (PreparedStatement.set_tracing s x) y =
        PreparedStatement.set_tracing (PreparedStatement.set_timestamp s y) x) ∧
    (∀ (s : PreparedStatement) (x : Bool) (y : Option Duration),
      PreparedStatement.set_request_timeout (PreparedStatement.set_tracing s x) y =
        PreparedStatement.set_tracing (PreparedStatement.set_request_timeout s y) x) ∧
    (∀ (s : PreparedStatement) (x : Bool) (y : HistoryListener),
      PreparedStatement.set_history_listener (PreparedStatement.set_tracing s x) y =
        PreparedStatement.set_tracing (PreparedStatement.set_history_listener s y) x) ∧
    (∀ (s : PreparedStatement) (x : Bool) (y : Option ExecutionProfileHandle),
      PreparedStatement.set_execution_profile_handle (PreparedStatement.set_tracing s x) y =
        PreparedStatement.set_tracing (PreparedStatement.set_execution_profile_handle s y) x) ∧
    (∀ (s : PreparedStatement) (x : Option Int) (y : Option Duration),
      PreparedStatement.set_request_timeout (PreparedStatement.set_timestamp s x) y =
        PreparedStatement.set_timestamp (PreparedStatement.set_request_timeout s y) x) ∧
    (∀ (s : PreparedStatement) (x : Option Int) (y : HistoryListener),
      PreparedStatement.set_history_listener (PreparedStatement.set_timestamp s x) y =
        PreparedStatement.set_timestamp (PreparedStatement.set_history_listener s y) x) ∧
    (∀ (s : PreparedStatement) (x : Option Int) (y : Option ExecutionProfileHandle),
      PreparedStatement.set_execution_profile_handle (PreparedStatement.set_timestamp s x) y =
        PreparedStatement.set_timestamp (PreparedStatement.set_execution_profile_handle s y) x) ∧
    (∀ (s : PreparedStatement) (x : Option Duration) (y : HistoryListener),
      PreparedStatement.set_history_listener (PreparedStatement.set_request_timeout s x) y =
        PreparedStatement.set_request_timeout (PreparedStatement.set_history_listener s y) x) ∧
    (∀ (s : PreparedStatement) (x : Option Duration) (y : Option ExecutionProfileHandle),
      PreparedStatement.set_execution_profile_handle (PreparedStatement.set_request_timeout s x) y =
        PreparedStatement.set_request_timeout (PreparedStatement.set_execution_profile_handle s y) x) ∧
    (∀ (s : PreparedStatement) (x : HistoryListener) (y : Option ExecutionProfileHandle),
      PreparedStatement.set_execution_profile_handle (PreparedStatement.set_history_listener s x) y =
        PreparedStatement.set_history_listener (PreparedStatement.set_execution_profile_handle s y) x) ∧
    (∀ (s : PreparedStatement) (x y : Consistency),
      PreparedStatement.set_consistency (PreparedStatement.set_consistency s x) y =
        PreparedStatement.set_consistency s y) ∧
    (∀ (s : PreparedStatement) (x y : Option SerialConsistency),
      PreparedStatement.set_serial_consistency (PreparedStatement.set_serial_consistency s x) y =
        PreparedStatement.set_serial_consistency s y) ∧
    (∀ (s : PreparedStatement) (x y : Bool),
      PreparedStatement.set_is_idempotent (PreparedStatement.set_is_idempotent s x) y =
        PreparedStatement.set_is_idempotent s y) ∧
    (∀ (s : PreparedStatement) (x y : Bool),
      PreparedStatement.set_tracing (PreparedStatement.set_tracing s x) y =
        PreparedStatement.set_tracing s y) ∧
    (∀ (s : PreparedStatement) (x y : Option Int),
      PreparedStatement.set_timestamp (PreparedStatement.set_timestamp s x) y =
        PreparedStatement.set_timestamp s y) ∧
    (∀ (s : PreparedStatement) (x y : Option Duration),
      PreparedStatement.set_request_timeout (PreparedStatement.set_request_timeout s x) y =
        PreparedStatement.set_request_timeout s y) ∧
    (∀ (s : PreparedStatement) (x y : HistoryListener),
      PreparedStatement.set_history_listener (PreparedStatement.set_history_listener s x) y =
        PreparedStatement.set_history_listener s y) ∧
    (∀ (s : PreparedStatement) (x y : Option ExecutionProfileHandle),
      PreparedStatement.set_execution_profile_handle (PreparedStatement.set_execution_profile_handle s x) y =
        PreparedStatement.set_execution_profile_handle s y) := by
  repeat' apply And.intro
  all_goals exact fun _ _ _ => rfl

end Scylla

namespace Scylla

/-- C10: under the documented invariant — `pk_indexes` strictly ascending
by `index`, indexes being `u16`s — and for any bound-value sequence within
the `i16` length bound of `SerializedValues` (at most 32767 entries), the
`u16` cursor arithmetic of the composite path never wraps: the checked
codec reports no underflow of `pk_index.index - values_iter_offset` and no
overflow of `values_iter_offset = pk_index.index + 1`, and agrees with the
codec. -/
theorem cursor_arithmetic_safe (meta : PreparedMetadata) (values : SerializedValues)
    (hsort : List.Pairwise (fun a b => a.index < b.index) meta.pk_indexes)
    (hhi : ∀ pk ∈ meta.pk_indexes, pk.index < 65536)
    (hvl : values.length ≤ 32767) :
    compute_partition_key_checked meta values =
      some (compute_partition_key meta values) := by
  unfold compute_partition_key_checked compute_partition_key
  by_cases h1 : meta.pk_indexes.length = 1
  · rw [if_pos h1, if_pos h1]
  · rw [if_neg h1, if_neg h1]
    have hchk := pkLoopChecked_eq meta.pk_indexes values values.length hvl 0
      (List.replicate meta.pk_indexes.length none) (by omega) hsort
      (fun q _ => Nat.zero_le _) hhi
    simp only [List.drop_zero, Nat.zero_mod] at hchk
    rw [hchk]
    cases hres : pkLoop meta.pk_indexes values 0 values.length
        (List.replicate meta.pk_indexes.length none) with
    | error e => rfl
    | ok pk_values => rfl

/-- C10 witness: the checked codec agrees with the codec on the gapped
two-component fixture. -/
theorem cursor_arithmetic_safe_witness :
    compute_partition_key_checked exMeta6 exVals6 =
      some (compute_partition_key exMeta6 exVals6) :=
  cursor_arithmetic_safe exMeta6 exVals6 (by decide) (by decide) (by decide)

end Scylla
